import Mathlib

/-!
Verification development for the network-states enclave server
(enclave coordinator of a fog-of-war strategy game).

The enclave server handlers (login, getMoveSignature, decrypt,
onSpawnAttempt, onMoveFinalize, alertPlayers, upkeepClaimedMoves,
enqueueTile, dequeueTileIfDAConnected and the spawn-location formula of
getSpawnSignature) are shallowly embedded below, translated directly from
the TypeScript source.  Each handler is a pure function from an explicit
enclave state (EState) and its message arguments to a new state plus a
list of observable effects (socket emissions, disconnections, error
logs), mirroring the run-to-completion event dispatch of the server.

External collaborators that are not part of this repository's sources are
modelled symbolically, each marked in its doc comment:
  - the poseidon tile hash is modelled as a perfectly collision-resistant
    content commitment, i.e. the tile content itself (type TileHash);
  - the AES tile encryption is modelled as a symbolic envelope carrying
    the tile;
  - signature recovery (ethers verifyMessage) is passed in as a function
    parameter, with a throw modelled as none;
  - the game library (Board, Tile, fog-of-war) is not under the sources,
    so its operations are modelled from the spec where noted.
-/

namespace NSEnclave

/-- Grid location, the r and c fields of the TypeScript Location record. -/
structure Loc where
  r : Int
  c : Int
deriving DecidableEq, Repr

/-- Kind marker of a tile: an ordinary tile, a city center, a capital
(the center of a player's original city), or the mystery sentinel for
masked tiles.  Modelled from the spec: isCapital and isCityCenter are
tile attributes queried by the reconciler. -/
inductive TileKind where
  | normal
  | cityCenter
  | capital
  | mystery
deriving DecidableEq, Repr

/-- Tile record: location, owner identity (symbol and address), resource
count, city id and kind.  Owner and resources follow the spec data
model; the owner of an unowned or mystery tile is the empty address. -/
structure Tile where
  loc : Loc
  ownerSymbol : String
  ownerAddr : String
  resources : Nat
  cityId : Nat
  kind : TileKind
deriving DecidableEq, Repr

/-- Tile.isCapital from the game library.  Modelled from the spec: a
capital is the head tile of a player's original city. -/
def Tile.isCapital (t : Tile) : Bool :=
  t.kind = TileKind.capital

/-- Tile.isCityCenter from the game library.  Modelled from the spec: a
city center is the head tile of a city; a capital is in particular the
center of its city. -/
def Tile.isCityCenter (t : Tile) : Bool :=
  t.kind = TileKind.cityCenter || t.kind = TileKind.capital

/-- Tile.mystery(l) from the game library.  Modelled from the spec: a
sentinel carrying only the location; owner, resource and city fields are
fixed constants revealing nothing about the true tile. -/
def Tile.mystery (l : Loc) : Tile :=
  { loc := l, ownerSymbol := "", ownerAddr := "", resources := 0,
    cityId := 0, kind := TileKind.mystery }

/-- Collision-resistant content hash of a tile.  The source uses a
poseidon hash (external primitive); it is modelled as the content itself,
a perfectly collision-resistant commitment. -/
def TileHash := Tile
deriving DecidableEq, Repr

/-- Association-list lookup keyed by decidable equality; the first
binding for the key wins, matching the single-binding JavaScript Map. -/
def lookupA {κ α : Type} [DecidableEq κ] : List (κ × α) → κ → Option α
  | [], _ => none
  | (k0, v) :: rest, k => if k0 = k then some v else lookupA rest k

/-- Association-list update: replace the first binding for the key, or
append a fresh binding, matching Map.set. -/
def setA {κ α : Type} [DecidableEq κ] : List (κ × α) → κ → α → List (κ × α)
  | [], k, v => [(k, v)]
  | (k0, v0) :: rest, k, v =>
      if k0 = k then (k, v) :: rest else (k0, v0) :: setA rest k v

/-- Association-list deletion of every binding for the key, matching
Map.delete on a single-binding map. -/
def eraseA {κ α : Type} [DecidableEq κ] : List (κ × α) → κ → List (κ × α)
  | [], _ => []
  | (k0, v0) :: rest, k =>
      if k0 = k then eraseA rest k else (k0, v0) :: eraseA rest k

/-- Board: the grid of tiles, stored as the list of tiles placed so far,
plus the board size.  Modelled from the spec data model; the derived
indices cityTiles and playerCities are computed from the grid. -/
structure Board where
  size : Nat
  tiles : List Tile
deriving DecidableEq, Repr

/-- Find the tile stored at a location, if any. -/
def findTile : List Tile → Loc → Option Tile
  | [], _ => none
  | t :: rest, l => if t.loc = l then some t else findTile rest l

/-- Board.getTile from the game library.  Modelled from the spec: the
tile of the grid at the location; a location never written is the
mystery sentinel for it. -/
def Board.getTile (b : Board) (l : Loc) : Tile :=
  (findTile b.tiles l).getD (Tile.mystery l)

/-- Replace the tile at the location of the new tile, or add it. -/
def setTileList : List Tile → Tile → List Tile
  | [], u => [u]
  | t :: rest, u => if t.loc = u.loc then u :: rest else t :: setTileList rest u

/-- Board.setTile from the game library.  Modelled from the spec: writes
the tile into the grid at its own location. -/
def Board.setTile (b : Board) (u : Tile) : Board :=
  { b with tiles := setTileList b.tiles u }

/-- Board.cityTiles derived index.  Modelled from the spec: the
locations of all tiles of the given city. -/
def Board.cityTiles (b : Board) (cid : Nat) : List Loc :=
  (b.tiles.filter (fun t => t.cityId == cid)).map Tile.loc

/-- Board.playerCities derived index.  Modelled from the spec: the ids
of all cities having a tile owned by the given address. -/
def Board.playerCities (b : Board) (addr : String) : List Nat :=
  ((b.tiles.filter (fun t => t.ownerAddr == addr)).map Tile.cityId).dedup

/-- Whether a location lies on the board. -/
def Board.inBoundsB (b : Board) (l : Loc) : Bool :=
  decide (0 ≤ l.r) && decide (l.r < (b.size : Int)) &&
  decide (0 ≤ l.c) && decide (l.c < (b.size : Int))

/-- Offsets of the 3x3 neighborhood. -/
def nearbyOffsets : List (Int × Int) :=
  [(-1, -1), (-1, 0), (-1, 1), (0, -1), (0, 0), (0, 1), (1, -1), (1, 0), (1, 1)]

/-- Board.getNearbyLocations from the game library.  Modelled from the
spec: the fixed-radius (3x3) board-clipped neighborhood of a location,
including the location itself when on the board. -/
def Board.getNearbyLocations (b : Board) (l : Loc) : List Loc :=
  (nearbyOffsets.map (fun d => Loc.mk (l.r + d.1) (l.c + d.2))).filter
    (fun l2 => b.inBoundsB l2)

/-- Board.noFog from the game library.  Modelled from the spec: the
player sees a location iff they own that tile or any tile in its
neighborhood. -/
def Board.noFog (b : Board) (l : Loc) (addr : String) : Bool :=
  (b.getTile l).ownerAddr == addr ||
  (b.getNearbyLocations l).any (fun l2 => (b.getTile l2).ownerAddr == addr)

/-- Board.isSpawned from the game library.  Modelled from the spec: a
capital tile's existence implies the owner is spawned. -/
def Board.isSpawned (b : Board) (addr : String) : Bool :=
  b.tiles.any (fun t => t.ownerAddr == addr && t.isCapital)

/-- DA backup envelope of a tile: owner symbol and address, ciphertext,
iv and auth tag.  The AES cipher is external; the ciphertext is modelled
symbolically as the tile it encrypts, iv and tag as constants. -/
structure EncryptedTile where
  symbol : String
  address : String
  ciphertext : Tile
  iv : Nat
  tag : Nat
deriving DecidableEq, Repr

/-- Utils.encryptTile composed with the envelope construction of
enqueueTile, as a pure function of the tile. -/
def encTile (t : Tile) : EncryptedTile :=
  { symbol := t.ownerSymbol, address := t.ownerAddr, ciphertext := t,
    iv := 0, tag := 0 }

/-- ClaimedMove record stored when a move proposal is endorsed. -/
structure ClaimedMove where
  uFrom : Tile
  uTo : Tile
  blockSubmitted : Nat
  uFromEnc : EncryptedTile
  uToEnc : EncryptedTile
deriving DecidableEq, Repr

/-- ClaimedSpawn record stored when a spawn proposal is endorsed. -/
structure ClaimedSpawn where
  prevTile : Tile
  spawnTile : Tile
deriving DecidableEq, Repr

/-- The enclave's mutable global state: recovery flag, board belief,
session directory (both directions), claim tables, current block height,
per-address latest proposal height, DA attachment and DA backup queue,
plus the CLAIMED_MOVE_LIFE_SPAN configuration value. -/
structure EState where
  inRecoveryMode : Bool
  board : Board
  idToAddress : List (String × String)
  addressToId : List (String × String)
  claimedMoves : List ((TileHash × TileHash) × ClaimedMove)
  claimedSpawns : List (String × ClaimedSpawn)
  currentBlockHeight : Nat
  playerLatestBlock : List (String × Nat)
  socketIdDA : Option String
  queuedTilesDA : List EncryptedTile
  claimedMoveLifeSpan : Nat
deriving DecidableEq, Repr

/-- Observable effects of a handler: socket emissions, disconnections
and error logs.  emitTrySpawn carries an optional socket id because the
source may address the trySpawn prompt to an unbound (undefined) room,
where it reaches nobody. -/
inductive Eff where
  | disconnect (sockId : String)
  | logError (msg : String)
  | emitLoginResponse (sockId : String) (locs : List Loc)
  | emitTrySpawn (sockId : Option String)
  | emitMoveSignatureResponse (sockId : String) (blockNumber : Nat)
  | emitDecryptResponse (sockId : String) (t : Tile)
  | emitUpdateDisplay (sockId : String) (locs : List Loc)
  | emitSaveToDatabase (sockId : String) (e : EncryptedTile)
deriving DecidableEq, Repr

/-- enqueueTile: encrypt a tile and append its envelope to the DA backup
queue, returning the envelope. -/
def enqueueTile (s : EState) (t : Tile) : EState × EncryptedTile :=
  let enc := encTile t
  ({ s with queuedTilesDA := s.queuedTilesDA ++ [enc] }, enc)

/-- dequeueTileIfDAConnected: if a DA node is attached and the queue is
non-empty, pop the head envelope and emit it to the DA node. -/
def dequeueTileIfDAConnected (s : EState) : EState × List Eff :=
  match s.socketIdDA with
  | some da =>
    match s.queuedTilesDA with
    | enc :: rest =>
        ({ s with queuedTilesDA := rest }, [Eff.emitSaveToDatabase da enc])
    | [] => (s, [])
  | none => (s, [])

/-- The visible-tiles set computed on login of a spawned player: the
union of the neighborhoods of every tile of every city of the player,
deduplicated (the source collects them in a Set). -/
def visibleTilesOf (b : Board) (addr : String) : List Loc :=
  (((b.playerCities addr).map
      (fun cid => ((b.cityTiles cid).map
        (fun l => b.getNearbyLocations l)).flatten)).flatten).dedup

/-- login handler.  The signature recovery (ethers verifyMessage over
the socket id as nonce) is external and passed as the recover parameter;
a recovery throw on a malformed signature is none.  Mirrors the source:
refuse in recovery mode, refuse an address already bound, refuse a
malformed signature, refuse a recovered signer that is falsy or differs
from the claimed address; on success bind the session both ways, and for
a spawned player reset the latest-proposal height and send the visible
locations, otherwise prompt a spawn. -/
def login (recover : String → String → Option String) (s : EState)
    (sockId address sigStr : String) : EState × List Eff :=
  if s.inRecoveryMode then (s, [Eff.disconnect sockId])
  else if (lookupA s.addressToId address).isSome then (s, [Eff.disconnect sockId])
  else
    match recover sockId sigStr with
    | none => (s, [Eff.disconnect sockId])
    | some sender =>
      if sender = "" ∨ address ≠ sender then (s, [Eff.disconnect sockId])
      else
        let s1 := { s with idToAddress := setA s.idToAddress sockId address,
                           addressToId := setA s.addressToId address sockId }
        if s1.board.isSpawned address then
          let s2 := { s1 with
            idToAddress := setA s1.idToAddress sockId address,
            addressToId := setA s1.addressToId address sockId,
            playerLatestBlock := setA s1.playerLatestBlock address 0 }
          (s2, [Eff.emitLoginResponse sockId (visibleTilesOf s2.board address)])
        else (s1, [Eff.emitTrySpawn (some sockId)])

/-- getMoveSignature handler.  Mirrors the source: refuse (disconnect)
in recovery mode or for an unbound session; accept only when the
address's latest proposal height is recorded and below the current block
height and the from tile is owned by the sender; on acceptance encrypt
and enqueue both tiles, record the ClaimedMove under the hash-pair key,
emit the endorsement at the current height, record the current height as
the address's latest proposal height, and trigger a DA dequeue. -/
def getMoveSignature (s : EState) (sockId : String) (uFrom uTo : Tile) :
    EState × List Eff :=
  match lookupA s.idToAddress sockId with
  | none => (s, [Eff.disconnect sockId])
  | some sender =>
    if s.inRecoveryMode then (s, [Eff.disconnect sockId])
    else
      match lookupA s.playerLatestBlock sender with
      | none => (s, [Eff.disconnect sockId])
      | some latestBlock =>
        if latestBlock < s.currentBlockHeight ∧ uFrom.ownerAddr = sender then
          let p1 := enqueueTile s uFrom
          let p2 := enqueueTile p1.1 uTo
          let cm : ClaimedMove :=
            { uFrom := uFrom, uTo := uTo, blockSubmitted := s.currentBlockHeight,
              uFromEnc := p1.2, uToEnc := p2.2 }
          let s3 := { p2.1 with
            claimedMoves := setA p2.1.claimedMoves (uFrom, uTo) cm,
            playerLatestBlock :=
              setA p2.1.playerLatestBlock sender s.currentBlockHeight }
          let p4 := dequeueTileIfDAConnected s3
          (p4.1, Eff.emitMoveSignatureResponse sockId s.currentBlockHeight :: p4.2)
        else (s, [Eff.disconnect sockId])

/-- decrypt handler.  Mirrors the source: refuse in recovery mode or for
an unbound session; answer with the true tile when the fog-of-war check
passes for the requesting address, else with the mystery sentinel. -/
def decrypt (s : EState) (sockId : String) (l : Loc) : EState × List Eff :=
  match lookupA s.idToAddress sockId with
  | none => (s, [Eff.disconnect sockId])
  | some addr =>
    if s.inRecoveryMode then (s, [Eff.disconnect sockId])
    else if s.board.noFog l addr then
      (s, [Eff.emitDecryptResponse sockId (s.board.getTile l)])
    else
      (s, [Eff.emitDecryptResponse sockId (Tile.mystery l)])

/-- onSpawnAttempt handler.  Mirrors the source: no-op in recovery mode;
always retire the claimed spawn; on success with a claim and a bound
session commit the proposed tile, reset the address's latest-proposal
height, enqueue the tile for DA, trigger a dequeue and push the initial
view of the neighborhood of the spawn; on failure prompt a retry to the
(possibly unbound) session; on success without a claim but with a bound
session log the anomaly. -/
def onSpawnAttempt (s : EState) (player : String) (success : Bool) :
    EState × List Eff :=
  if s.inRecoveryMode then (s, [])
  else
    let spawn := lookupA s.claimedSpawns player
    let s0 := { s with claimedSpawns := eraseA s.claimedSpawns player }
    let socketId := lookupA s.addressToId player
    if success then
      match spawn, socketId with
      | some sp, some sid =>
        let s1 := { s0 with board := s0.board.setTile sp.spawnTile,
                            playerLatestBlock := setA s0.playerLatestBlock player 0 }
        let p2 := enqueueTile s1 sp.spawnTile
        let p3 := dequeueTileIfDAConnected p2.1
        let visibleLocs := p3.1.board.getNearbyLocations sp.spawnTile.loc
        (p3.1, p3.2 ++ [Eff.emitLoginResponse sid visibleLocs])
      | _, _ =>
        match socketId with
        | some _ => (s0, [Eff.logError "spawned without a signature"])
        | none => (s0, [])
    else (s0, [Eff.emitTrySpawn socketId])

/-- The affected-locations list computed by onMoveFinalize before the
board update: always the origin of the move, plus every tile of every
city of the dispossessed owner when a capital changed hands, or the
tiles of the destination city when a city center changed hands, or the
destination itself otherwise. -/
def computeUpdatedLocs (b : Board) (move : ClaimedMove) : List Loc :=
  let tTo := b.getTile move.uTo.loc
  let newOwner := move.uTo.ownerAddr
  let prevOwner := tTo.ownerAddr
  if prevOwner ≠ newOwner ∧ tTo.isCapital then
    move.uFrom.loc ::
      ((b.playerCities prevOwner).map (fun cid => b.cityTiles cid)).flatten
  else if prevOwner ≠ newOwner ∧ tTo.isCityCenter then
    move.uFrom.loc :: b.cityTiles tTo.cityId
  else [move.uFrom.loc, move.uTo.loc]

/-- The notification map built by alertPlayers: insertion-ordered keys,
each with an insertion-ordered duplicate-free location set. -/
abbrev AlertMap : Type := List (String × List Loc)

/-- Whether the notification map has a key. -/
def amHas (m : AlertMap) (k : String) : Bool :=
  (lookupA m k).isSome

/-- Ensure a key is present in the notification map with an (initially
empty) location set, matching the source's has-check followed by set. -/
def amEnsure (m : AlertMap) (k : String) : AlertMap :=
  if amHas m k then m else m ++ [(k, [])]

/-- Add a location to the set of an existing key; a missing key is left
alone, matching the source's optional-chained add. -/
def amAdd : AlertMap → String → Loc → AlertMap
  | [], _, _ => []
  | (k0, vs) :: rest, k, v =>
      if k0 = k then (k0, if v ∈ vs then vs else vs ++ [v]) :: rest
      else (k0, vs) :: amAdd rest k v

/-- One inner step of alertPlayers for a nearby location l of an updated
location: register the owner of l, give them the updated location, and
give the new and previous owners (when present) the nearby location. -/
def processNearbyLoc (b : Board) (newOwner prevOwner : String) (updLoc : Loc)
    (m : AlertMap) (l : Loc) : AlertMap :=
  let tileOwner := (b.getTile l).ownerAddr
  amAdd (amAdd (amAdd (amEnsure m tileOwner) tileOwner updLoc) newOwner l)
    prevOwner l

/-- The notification map of alertPlayers over all updated locations. -/
def buildAlertMap (b : Board) (newOwner prevOwner : String)
    (locs : List Loc) : AlertMap :=
  locs.foldl
    (fun m loc =>
      (b.getNearbyLocations loc).foldl (processNearbyLoc b newOwner prevOwner loc) m)
    []

/-- alertPlayers helper of onMoveFinalize: build the notification map
and emit an updateDisplay to each mapped player with a live session. -/
def alertPlayers (b : Board) (addressToId : List (String × String))
    (newOwner prevOwner : String) (updatedLocs : List Loc) : List Eff :=
  (buildAlertMap b newOwner prevOwner updatedLocs).filterMap
    (fun kv =>
      match lookupA addressToId kv.1 with
      | some sid => some (Eff.emitUpdateDisplay sid kv.2)
      | none => none)

/-- onMoveFinalize handler.  Mirrors the source: no-op in recovery mode;
look up the ClaimedMove under the hash-pair key of the event; when
absent log the anomaly and do nothing else; when present retire the
claim, compute the affected locations against the pre-update board,
commit both tiles, enqueue both for DA, trigger a dequeue and run the
notification pass against the updated board. -/
def onMoveFinalize (s : EState) (hUFrom hUTo : TileHash) : EState × List Eff :=
  if s.inRecoveryMode then (s, [])
  else
    match lookupA s.claimedMoves (hUFrom, hUTo) with
    | some move =>
      let s0 := { s with claimedMoves := eraseA s.claimedMoves (hUFrom, hUTo) }
      let tTo := s.board.getTile move.uTo.loc
      let newOwner := move.uTo.ownerAddr
      let prevOwner := tTo.ownerAddr
      let updatedLocs := computeUpdatedLocs s.board move
      let s1 := { s0 with board := (s0.board.setTile move.uFrom).setTile move.uTo }
      let p2 := enqueueTile s1 move.uFrom
      let p3 := enqueueTile p2.1 move.uTo
      let p4 := dequeueTileIfDAConnected p3.1
      (p4.1, p4.2 ++ alertPlayers p4.1.board p4.1.addressToId newOwner prevOwner
        updatedLocs)
    | none => (s, [Eff.logError "finalized without a signature"])

/-- upkeepClaimedMoves: delete every claimed move pending for more than
the configured lifespan of blocks. -/
def upkeepClaimedMoves (s : EState) : EState :=
  { s with claimedMoves :=
      s.claimedMoves.filter (fun kv =>
        !(decide (s.currentBlockHeight >
          kv.2.blockSubmitted + s.claimedMoveLifeSpan))) }

/-- Per-block tick: record the new block height, then sweep expired
claimed moves, as in the block event subscription of the source. -/
def onBlock (s : EState) (n : Nat) : EState :=
  upkeepClaimedMoves { s with currentBlockHeight := n }

/-- The spawn location computed by getSpawnSignature from the player's
secret and the block hash at the commitment height, translated from the
source: each raw coordinate is the poseidon permutation (abstracted as
the parameter H, absorbing the leading zero pad) of the secret, the
block hash and the coordinate index, reduced modulo the board size. -/
def spawnLoc (H : Nat → Nat → Nat → Nat) (secret blockHash size : Nat) : Loc :=
  let rawRow := H secret blockHash 0
  let rawCol := H secret blockHash 1
  { r := (rawRow % size : Nat), c := (rawCol % size : Nat) }

/-- Modelled from the spec: the fixed hash-to-grid mapping, row equals
H(secret, blockhash, 0) mod size and col equals H(secret, blockhash, 1)
mod size, written independently of the source translation so the two
can be compared. -/
def spawnLocFormula (H : Nat → Nat → Nat → Nat) (secret blockHash size : Nat) :
    Loc :=
  { r := (H secret blockHash 0 % size : Nat),
    c := (H secret blockHash 1 % size : Nat) }

/-- Keys of the notification map, in insertion order. -/
def amKeys (m : AlertMap) : List String :=
  m.map Prod.fst

/-- Whether an effect list contains an updateDisplay emission addressed
to the given socket. -/
def alertedTo (sid : String) (effs : List Eff) : Bool :=
  effs.any (fun e =>
    match e with
    | Eff.emitUpdateDisplay s _ => s == sid
    | _ => false)

/-- A concrete stand-in for the external poseidon permutation, used only
to instantiate witnesses. -/
def hashDemo : Nat → Nat → Nat → Nat :=
  fun a b c => a * 31 + b * 7 + c + 1

/-- A concrete stand-in for signature recovery that always throws, used
only to instantiate witnesses. -/
def recoverNone : String → String → Option String :=
  fun _ _ => none

/-- Sample tile: capital of player A at the origin. -/
def tileA0 : Tile :=
  { loc := { r := 0, c := 0 }, ownerSymbol := "A", ownerAddr := "addrA",
    resources := 9, cityId := 1, kind := TileKind.capital }

/-- Sample tile: capital of player B next to the origin. -/
def tileB1 : Tile :=
  { loc := { r := 0, c := 1 }, ownerSymbol := "B", ownerAddr := "addrB",
    resources := 3, cityId := 2, kind := TileKind.capital }

/-- Sample three-by-three board holding the two sample capitals. -/
def bd1 : Board :=
  { size := 3, tiles := [tileA0, tileB1] }

/-- Sample moved-from tile of player A. -/
def uFromM : Tile :=
  { loc := { r := 0, c := 0 }, ownerSymbol := "A", ownerAddr := "addrA",
    resources := 1, cityId := 1, kind := TileKind.capital }

/-- Sample moved-to tile of player A onto the adjacent location. -/
def uToM : Tile :=
  { loc := { r := 0, c := 1 }, ownerSymbol := "A", ownerAddr := "addrA",
    resources := 7, cityId := 1, kind := TileKind.normal }

/-- Sample claimed move of player A proposed at height 100. -/
def cmM : ClaimedMove :=
  { uFrom := uFromM, uTo := uToM, blockSubmitted := 100,
    uFromEnc := encTile uFromM, uToEnc := encTile uToM }

/-- Baseline sample enclave state: normal mode, the sample board, no
sessions, no claims, height 101, no DA node, lifespan 5. -/
def sBase : EState :=
  { inRecoveryMode := false, board := bd1, idToAddress := [],
    addressToId := [], claimedMoves := [], claimedSpawns := [],
    currentBlockHeight := 101, playerLatestBlock := [], socketIdDA := none,
    queuedTilesDA := [], claimedMoveLifeSpan := 5 }

/-- Baseline state with the sample claimed move recorded. -/
def sWithClaim : EState :=
  { sBase with claimedMoves := [((uFromM, uToM), cmM)] }

/-- Sample proposed spawn tile for player A away from the capitals. -/
def spawnTileC2 : Tile :=
  { loc := { r := 2, c := 2 }, ownerSymbol := "A", ownerAddr := "addrA",
    resources := 9, cityId := 3, kind := TileKind.capital }

/-- Sample claimed spawn of player A. -/
def spC2 : ClaimedSpawn :=
  { prevTile := Tile.mystery { r := 2, c := 2 }, spawnTile := spawnTileC2 }

/-- Sample state at height 5 where player A is logged in, has a pending
claimed spawn and has not proposed a move in the current block. -/
def sC2 : EState :=
  { sBase with
    idToAddress := [("sock1", "addrA")], addressToId := [("addrA", "sock1")],
    claimedSpawns := [("addrA", spC2)], currentBlockHeight := 5,
    playerLatestBlock := [("addrA", 0)] }

/-- Sample state at height 100 where player A is logged in and the
sample move claim proposed at height 100 is pending. -/
def sC3 : EState :=
  { sBase with
    idToAddress := [("sock1", "addrA")], addressToId := [("addrA", "sock1")],
    claimedMoves := [((uFromM, uToM), cmM)], currentBlockHeight := 100,
    playerLatestBlock := [("addrA", 100)] }

/-- Sample board where player A owns both the origin and the adjacent
destination, so the sample move changes no ownership. -/
def bd4a : Board :=
  { size := 3,
    tiles := [tileA0,
      { loc := { r := 0, c := 1 }, ownerSymbol := "A", ownerAddr := "addrA",
        resources := 2, cityId := 1, kind := TileKind.normal }] }

/-- Sample capital of player B whose city number seven has no other
tile: B's whole empire is this single tile. -/
def capB : Tile :=
  { loc := { r := 2, c := 2 }, ownerSymbol := "B", ownerAddr := "addrB",
    resources := 3, cityId := 7, kind := TileKind.capital }

/-- Sample tile of player A adjacent to B's lone capital. -/
def aFrom4 : Tile :=
  { loc := { r := 2, c := 1 }, ownerSymbol := "A", ownerAddr := "addrA",
    resources := 5, cityId := 1, kind := TileKind.normal }

/-- Sample board for the capital capture: A's tile next to B's lone
capital. -/
def bd4b : Board :=
  { size := 3, tiles := [aFrom4, capB] }

/-- Sample moved-from tile of the capital capture. -/
def uF4b : Tile :=
  { loc := { r := 2, c := 1 }, ownerSymbol := "A", ownerAddr := "addrA",
    resources := 1, cityId := 1, kind := TileKind.normal }

/-- Sample moved-to tile of the capital capture: A takes B's capital
location. -/
def uT4b : Tile :=
  { loc := { r := 2, c := 2 }, ownerSymbol := "A", ownerAddr := "addrA",
    resources := 6, cityId := 1, kind := TileKind.normal }

/-- Sample claimed move of the capital capture. -/
def cm4b : ClaimedMove :=
  { uFrom := uF4b, uTo := uT4b, blockSubmitted := 100,
    uFromEnc := encTile uF4b, uToEnc := encTile uT4b }

/-- Sample state for the capital capture where only the dispossessed
player B has a live session. -/
def sC4b : EState :=
  { sBase with
    board := bd4b,
    idToAddress := [("sockB", "addrB")], addressToId := [("addrB", "sockB")],
    claimedMoves := [((uF4b, uT4b), cm4b)] }

/-- Sample state for the capital capture where both players have live
sessions. -/
def sC4w : EState :=
  { sBase with
    board := bd4b,
    idToAddress := [("sockA", "addrA"), ("sockB", "addrB")],
    addressToId := [("addrA", "sockA"), ("addrB", "sockB")],
    claimedMoves := [((uF4b, uT4b), cm4b)] }

/-- Sample state where player A is logged in on the sample board. -/
def sC6 : EState :=
  { sBase with
    idToAddress := [("sock1", "addrA")], addressToId := [("addrA", "sock1")] }

/-- The state produced by the acceptance branch of getMoveSignature
before the trailing DA dequeue: both tiles encrypted and appended to the
backup queue, the ClaimedMove recorded under the hash-pair key, and the
sender's latest proposal height set to the current block height. -/
def acceptState (s : EState) (sender : String) (uFrom uTo : Tile) : EState :=
  { s with
    queuedTilesDA := s.queuedTilesDA ++ [encTile uFrom, encTile uTo],
    claimedMoves := setA s.claimedMoves (uFrom, uTo)
      { uFrom := uFrom, uTo := uTo, blockSubmitted := s.currentBlockHeight,
        uFromEnc := encTile uFrom, uToEnc := encTile uTo },
    playerLatestBlock := setA s.playerLatestBlock sender s.currentBlockHeight }

/-- The state produced by the found branch of onMoveFinalize before the
trailing DA dequeue: the claim retired, both tiles committed to the
Board, and both encrypted and appended to the backup queue. -/
def finalizeState (s : EState) (f t : TileHash) (cm : ClaimedMove) : EState :=
  { s with
    claimedMoves := eraseA s.claimedMoves (f, t),
    board := (s.board.setTile cm.uFrom).setTile cm.uTo,
    queuedTilesDA := s.queuedTilesDA ++ [encTile cm.uFrom, encTile cm.uTo] }

theorem lookupA_setA_same {κ α : Type} [DecidableEq κ] (m : List (κ × α))
    (k : κ) (v : α) : lookupA (setA m k v) k = some v := by
  induction m with
  | nil => simp [setA, lookupA]
  | cons kv rest ih =>
      obtain ⟨k0, v0⟩ := kv
      by_cases h : k0 = k
      · simp [setA, h, lookupA]
      · simp [setA, h, lookupA, ih]

theorem lookupA_none_of_not_mem {κ α : Type} [DecidableEq κ]
    (m : List (κ × α)) (k : κ) (h : k ∉ m.map Prod.fst) :
    lookupA m k = none := by
  induction m with
  | nil => simp [lookupA]
  | cons kv rest ih =>
      obtain ⟨k0, v0⟩ := kv
      simp only [List.map_cons, List.mem_cons] at h
      push_neg at h
      have hk : ¬ k0 = k := fun he => h.1 he.symm
      simp [lookupA, hk, ih h.2]

theorem lookupA_filter_keep {κ α : Type} [DecidableEq κ]
    (m : List (κ × α)) (k : κ) (v : α) (p : κ × α → Bool)
    (h : lookupA m k = some v) (hp : p (k, v) = true) :
    lookupA (m.filter p) k = some v := by
  induction m with
  | nil => simp [lookupA] at h
  | cons kv rest ih =>
      obtain ⟨k0, v0⟩ := kv
      by_cases hk : k0 = k
      · subst hk
        simp only [lookupA, if_pos rfl] at h
        obtain rfl : v0 = v := by injection h
        simp [List.filter_cons, hp, lookupA]
      · simp only [lookupA, if_neg hk] at h
        cases hp0 : p (k0, v0) <;>
          simp [List.filter_cons, hp0, lookupA, hk, ih h]

theorem lookupA_filter_of_none {κ α : Type} [DecidableEq κ]
    (m : List (κ × α)) (k : κ) (p : κ × α → Bool)
    (h : lookupA m k = none) : lookupA (m.filter p) k = none := by
  induction m with
  | nil => simp [lookupA]
  | cons kv rest ih =>
      obtain ⟨k0, v0⟩ := kv
      by_cases hk : k0 = k
      · simp [lookupA, hk] at h
      · simp only [lookupA, if_neg hk] at h
        cases hp0 : p (k0, v0) <;>
          simp [List.filter_cons, hp0, lookupA, hk, ih h]

theorem lookupA_filter_drop {κ α : Type} [DecidableEq κ]
    (m : List (κ × α)) (k : κ) (v : α) (p : κ × α → Bool)
    (hnd : (m.map Prod.fst).Nodup)
    (h : lookupA m k = some v) (hp : p (k, v) = false) :
    lookupA (m.filter p) k = none := by
  induction m with
  | nil => simp [lookupA] at h
  | cons kv rest ih =>
      obtain ⟨k0, v0⟩ := kv
      simp only [List.map_cons, List.nodup_cons] at hnd
      by_cases hk : k0 = k
      · have hv : v0 = v := by
          have hh := h
          simp [lookupA, hk] at hh
          exact hh
        have hrest : lookupA rest k = none :=
          lookupA_none_of_not_mem rest k (hk ▸ hnd.1)
        have hpk : p (k0, v0) = false := by rw [hk, hv]; exact hp
        simp [List.filter_cons, hpk, lookupA_filter_of_none rest k p hrest]
      · simp only [lookupA, if_neg hk] at h
        cases hp0 : p (k0, v0) <;>
          simp [List.filter_cons, hp0, lookupA, hk, ih hnd.2 h]

theorem dequeue_state_parts (s : EState) :
    (dequeueTileIfDAConnected s).1.board = s.board
    ∧ (dequeueTileIfDAConnected s).1.addressToId = s.addressToId
    ∧ (dequeueTileIfDAConnected s).1.idToAddress = s.idToAddress
    ∧ (dequeueTileIfDAConnected s).1.claimedMoves = s.claimedMoves
    ∧ (dequeueTileIfDAConnected s).1.playerLatestBlock = s.playerLatestBlock
    ∧ (dequeueTileIfDAConnected s).1.currentBlockHeight = s.currentBlockHeight
    ∧ (dequeueTileIfDAConnected s).1.inRecoveryMode = s.inRecoveryMode := by
  cases hda : s.socketIdDA <;> cases hq : s.queuedTilesDA <;>
    simp [dequeueTileIfDAConnected, hda, hq]

theorem dequeue_of_no_da (s : EState) (h : s.socketIdDA = none) :
    dequeueTileIfDAConnected s = (s, []) := by
  simp [dequeueTileIfDAConnected, h]

/-- Claim C1 counterexample: a move-finalized event with no matching
local claim leaves the Board unchanged (the handler only logs), whereas
with the claim present the same event would have changed the Board; so
the event alone does not update the Board. -/
theorem onMoveFinalize_missing_claim_counterexample :
    (onMoveFinalize sBase uFromM uToM).1.board = sBase.board
    ∧ (onMoveFinalize sBase uFromM uToM).2 =
        [Eff.logError "finalized without a signature"]
    ∧ (onMoveFinalize sWithClaim uFromM uToM).1.board ≠ sBase.board := by
  refine ⟨by decide, by decide, by decide⟩

/-- Claim C1 (amended): a move-finalized event with no matching local
claim is handled without crashing by logging the anomaly only; the
entire state, in particular the Board, is left unchanged, because the
event names the tiles only by hash and carries no tile data to commit. -/
theorem onMoveFinalize_missing_claim_logs_and_ignores (s : EState)
    (f t : TileHash) (hrec : s.inRecoveryMode = false)
    (hnone : lookupA s.claimedMoves (f, t) = none) :
    onMoveFinalize s f t = (s, [Eff.logError "finalized without a signature"]) := by
  simp [onMoveFinalize, hrec, hnone]

/-- Witness for C1 at the sample state with no claims recorded. -/
theorem onMoveFinalize_missing_claim_logs_and_ignores_witness :
    onMoveFinalize sBase uFromM uToM =
      (sBase, [Eff.logError "finalized without a signature"]) :=
  onMoveFinalize_missing_claim_logs_and_ignores sBase uFromM uToM rfl rfl

/-- Claim C2: the code violates one-proposal-per-address-per-block.  At
the sample state at height 5 a first proposal by address A is accepted;
a spawn-attempt-resolved success event for A then resets A's recorded
latest proposal height to 0; a second proposal by A at the same height 5
is accepted again instead of being rejected. -/
theorem getMoveSignature_double_accept_same_block :
    sC2.currentBlockHeight = 5
    ∧ Eff.emitMoveSignatureResponse "sock1" 5 ∈
        (getMoveSignature sC2 "sock1" uFromM uToM).2
    ∧ lookupA (getMoveSignature sC2 "sock1" uFromM uToM).1.playerLatestBlock
        "addrA" = some 5
    ∧ lookupA (onSpawnAttempt (getMoveSignature sC2 "sock1" uFromM uToM).1
        "addrA" true).1.playerLatestBlock "addrA" = some 0
    ∧ (onSpawnAttempt (getMoveSignature sC2 "sock1" uFromM uToM).1
        "addrA" true).1.currentBlockHeight = 5
    ∧ Eff.emitMoveSignatureResponse "sock1" 5 ∈
        (getMoveSignature
          (onSpawnAttempt (getMoveSignature sC2 "sock1" uFromM uToM).1
            "addrA" true).1 "sock1" uFromM uToM).2
    ∧ Eff.disconnect "sock1" ∉
        (getMoveSignature
          (onSpawnAttempt (getMoveSignature sC2 "sock1" uFromM uToM).1
            "addrA" true).1 "sock1" uFromM uToM).2 := by
  refine ⟨rfl, by decide, by decide, by decide, rfl, by decide, by decide⟩

/-- Claim C5: the spawn location is the fixed hash-to-grid mapping of
the spec, and is a pure function of the secret and the block hash: the
source computation agrees with the spec formula, and two evaluations at
identical inputs agree. -/
theorem spawnLoc_deterministic_formula (H : Nat → Nat → Nat → Nat)
    (s1 b1 s2 b2 n : Nat) (hs : s1 = s2) (hb : b1 = b2) :
    spawnLoc H s1 b1 n = spawnLocFormula H s1 b1 n
    ∧ spawnLoc H s1 b1 n = spawnLoc H s2 b2 n := by
  subst hs; subst hb; exact ⟨rfl, rfl⟩

/-- Witness for C5 at a concrete hash function and concrete inputs. -/
theorem spawnLoc_deterministic_formula_witness :
    spawnLoc hashDemo 12 34 5 = spawnLocFormula hashDemo 12 34 5
    ∧ spawnLoc hashDemo 12 34 5 = spawnLoc hashDemo 12 34 5 :=
  spawnLoc_deterministic_formula hashDemo 12 34 12 34 5 rfl rfl

/-- Claim C8: a failed spawn attempt prompts the bound session (when
any) to retry and mutates no tile of the Board; since the derived
indices cityTiles and playerCities are computed from the Board, they are
unchanged as well. -/
theorem onSpawnAttempt_failure_frame (s : EState) (player : String)
    (hrec : s.inRecoveryMode = false) :
    (onSpawnAttempt s player false).1.board = s.board
    ∧ (onSpawnAttempt s player false).2 =
        [Eff.emitTrySpawn (lookupA s.addressToId player)] := by
  simp [onSpawnAttempt, hrec]

/-- Witness for C8 at the sample state with a bound session. -/
theorem onSpawnAttempt_failure_frame_witness :
    (onSpawnAttempt sC2 "addrA" false).1.board = sC2.board
    ∧ (onSpawnAttempt sC2 "addrA" false).2 =
        [Eff.emitTrySpawn (lookupA sC2.addressToId "addrA")] :=
  onSpawnAttempt_failure_frame sC2 "addrA" rfl

/-- Claim C9: login failure is atomic.  Whenever a login request is
refused for any of the four reasons of the source (recovery mode,
address already bound, signature recovery throws, recovered signer
falsy or different from the claimed address), the whole state, in
particular both session directory maps, is unchanged, and the only
effect is the disconnection of the requesting socket. -/
theorem login_refusal_atomic (recover : String → String → Option String)
    (s : EState) (sockId address sigStr : String)
    (href : s.inRecoveryMode = true
      ∨ (lookupA s.addressToId address).isSome = true
      ∨ recover sockId sigStr = none
      ∨ (∃ sender, recover sockId sigStr = some sender
          ∧ (sender = "" ∨ address ≠ sender))) :
    login recover s sockId address sigStr = (s, [Eff.disconnect sockId]) := by
  by_cases h1 : s.inRecoveryMode = true
  · simp [login, h1]
  · by_cases h2 : (lookupA s.addressToId address).isSome = true
    · simp [login, h1, h2]
    · cases hr : recover sockId sigStr with
      | none => simp [login, h1, h2, hr]
      | some sender =>
          by_cases h4 : sender = "" ∨ address ≠ sender
          · simp [login, h1, h2, hr, h4]
          · exfalso
            rcases href with h | h | h | ⟨sd, hsd, hbad⟩
            · exact h1 h
            · exact h2 h
            · simp [h] at hr
            · rw [hsd] at hr
              injection hr with he
              subst he
              exact h4 hbad

/-- Witness for C9: a login whose signature recovery throws at the
baseline sample state. -/
theorem login_refusal_atomic_witness :
    login recoverNone sBase "sockX" "addrX" "sig" =
      (sBase, [Eff.disconnect "sockX"]) :=
  login_refusal_atomic recoverNone sBase "sockX" "addrX" "sig"
    (Or.inr (Or.inr (Or.inl rfl)))

theorem getMoveSignature_accept_eq (s : EState) (sockId sender : String)
    (uFrom uTo : Tile) (lb : Nat)
    (hbind : lookupA s.idToAddress sockId = some sender)
    (hrec : s.inRecoveryMode = false)
    (hlb : lookupA s.playerLatestBlock sender = some lb)
    (hless : lb < s.currentBlockHeight)
    (hown : uFrom.ownerAddr = sender) :
    getMoveSignature s sockId uFrom uTo =
      ((dequeueTileIfDAConnected (acceptState s sender uFrom uTo)).1,
       Eff.emitMoveSignatureResponse sockId s.currentBlockHeight ::
         (dequeueTileIfDAConnected (acceptState s sender uFrom uTo)).2) := by
  simp [getMoveSignature, hbind, hrec, hlb, hless, hown, enqueueTile,
    acceptState, List.append_assoc]

theorem onMoveFinalize_found_eq (s : EState) (f t : TileHash)
    (cm : ClaimedMove) (hrec : s.inRecoveryMode = false)
    (hcm : lookupA s.claimedMoves (f, t) = some cm) :
    onMoveFinalize s f t =
      ((dequeueTileIfDAConnected (finalizeState s f t cm)).1,
       (dequeueTileIfDAConnected (finalizeState s f t cm)).2 ++
         alertPlayers (dequeueTileIfDAConnected (finalizeState s f t cm)).1.board
           (dequeueTileIfDAConnected (finalizeState s f t cm)).1.addressToId
           cm.uTo.ownerAddr (s.board.getTile cm.uTo.loc).ownerAddr
           (computeUpdatedLocs s.board cm)) := by
  simp [onMoveFinalize, hrec, hcm, enqueueTile, finalizeState,
    List.append_assoc]

/-- Claim C6: for a logged-in player the decrypt response equals the
true tile exactly when the location is visible to the player (the
player owns the tile or a tile in its neighborhood), and otherwise is
the mystery sentinel, whose owner, resource and city fields are fixed
constants carrying nothing of the true tile; the state is unchanged. -/
theorem decrypt_masked_view (s : EState) (sockId addr : String) (l : Loc)
    (hrec : s.inRecoveryMode = false)
    (hbind : lookupA s.idToAddress sockId = some addr)
    (hnm : s.board.getTile l ≠ Tile.mystery l) :
    (decrypt s sockId l).1 = s
    ∧ (s.board.noFog l addr = true →
        (decrypt s sockId l).2 =
          [Eff.emitDecryptResponse sockId (s.board.getTile l)])
    ∧ (s.board.noFog l addr = false →
        (decrypt s sockId l).2 =
          [Eff.emitDecryptResponse sockId (Tile.mystery l)])
    ∧ (Tile.mystery l).ownerAddr = "" ∧ (Tile.mystery l).ownerSymbol = ""
    ∧ (Tile.mystery l).resources = 0 ∧ (Tile.mystery l).cityId = 0
    ∧ ((decrypt s sockId l).2 =
          [Eff.emitDecryptResponse sockId (s.board.getTile l)]
        ↔ s.board.noFog l addr = true) := by
  rcases Bool.eq_false_or_eq_true (s.board.noFog l addr) with hf | hf
  · have heffs : (decrypt s sockId l).2 =
        [Eff.emitDecryptResponse sockId (s.board.getTile l)] := by
      simp [decrypt, hbind, hrec, hf]
    have hstate : (decrypt s sockId l).1 = s := by
      simp [decrypt, hbind, hrec, hf]
    exact ⟨hstate, fun _ => heffs,
      fun h => absurd (hf.symm.trans h) (by decide),
      rfl, rfl, rfl, rfl, by rw [heffs]; simp [hf]⟩
  · have heffs : (decrypt s sockId l).2 =
        [Eff.emitDecryptResponse sockId (Tile.mystery l)] := by
      simp [decrypt, hbind, hrec, hf]
    have hstate : (decrypt s sockId l).1 = s := by
      simp [decrypt, hbind, hrec, hf]
    refine ⟨hstate, fun h => absurd (hf.symm.trans h) (by decide),
      fun _ => heffs, rfl, rfl, rfl, rfl, ?_⟩
    rw [heffs]
    constructor
    · intro he
      injection he with hab _
      injection hab with _ ht
      exact absurd ht.symm hnm
    · intro he
      exact absurd (hf.symm.trans he) (by decide)

/-- Witness for C6: player A decrypts their own capital at the sample
logged-in state. -/
theorem decrypt_masked_view_witness :
    (decrypt sC6 "sock1" { r := 0, c := 0 }).1 = sC6
    ∧ (sC6.board.noFog { r := 0, c := 0 } "addrA" = true →
        (decrypt sC6 "sock1" { r := 0, c := 0 }).2 =
          [Eff.emitDecryptResponse "sock1"
            (sC6.board.getTile { r := 0, c := 0 })])
    ∧ (sC6.board.noFog { r := 0, c := 0 } "addrA" = false →
        (decrypt sC6 "sock1" { r := 0, c := 0 }).2 =
          [Eff.emitDecryptResponse "sock1" (Tile.mystery { r := 0, c := 0 })])
    ∧ (Tile.mystery { r := 0, c := 0 }).ownerAddr = ""
    ∧ (Tile.mystery { r := 0, c := 0 }).ownerSymbol = ""
    ∧ (Tile.mystery { r := 0, c := 0 }).resources = 0
    ∧ (Tile.mystery { r := 0, c := 0 }).cityId = 0
    ∧ ((decrypt sC6 "sock1" { r := 0, c := 0 }).2 =
          [Eff.emitDecryptResponse "sock1"
            (sC6.board.getTile { r := 0, c := 0 })]
        ↔ sC6.board.noFog { r := 0, c := 0 } "addrA" = true) :=
  decrypt_masked_view sC6 "sock1" "addrA" { r := 0, c := 0 } rfl rfl (by decide)

/-- Claim C7: a successful spawn attempt with a stored claim and a
bound session commits the proposed tile into the Board, resets the
address's latest proposal height to zero, and pushes the initial view,
the neighborhood of the spawn location, to the bound session. -/
theorem onSpawnAttempt_success_commits (s : EState) (player : String)
    (sp : ClaimedSpawn) (sid : String)
    (hrec : s.inRecoveryMode = false)
    (hsp : lookupA s.claimedSpawns player = some sp)
    (hsid : lookupA s.addressToId player = some sid)
    (hda : s.socketIdDA = none) :
    (onSpawnAttempt s player true).1.board = s.board.setTile sp.spawnTile
    ∧ lookupA (onSpawnAttempt s player true).1.playerLatestBlock player = some 0
    ∧ (onSpawnAttempt s player true).2 =
        [Eff.emitLoginResponse sid
          ((s.board.setTile sp.spawnTile).getNearbyLocations sp.spawnTile.loc)] := by
  simp [onSpawnAttempt, hrec, hsp, hsid, enqueueTile,
    dequeueTileIfDAConnected, hda, lookupA_setA_same]

/-- Witness for C7 at the sample state with player A's pending claimed
spawn. -/
theorem onSpawnAttempt_success_commits_witness :
    (onSpawnAttempt sC2 "addrA" true).1.board = sC2.board.setTile spC2.spawnTile
    ∧ lookupA (onSpawnAttempt sC2 "addrA" true).1.playerLatestBlock "addrA" =
        some 0
    ∧ (onSpawnAttempt sC2 "addrA" true).2 =
        [Eff.emitLoginResponse "sock1"
          ((sC2.board.setTile spC2.spawnTile).getNearbyLocations
            spC2.spawnTile.loc)] :=
  onSpawnAttempt_success_commits sC2 "addrA" spC2 "sock1" rfl (by decide)
    (by decide) rfl

/-- Claim C10: an accepted move proposal enqueues encrypted envelopes
of both tiles at proposal time, and the later finalization of the same
move enqueues both again, so a single finalized move adds exactly the
four envelopes in order, with the DA node detached: at least four
envelopes are produced into the queue. -/
theorem move_backup_enqueued (s : EState) (sockId sender : String)
    (uFrom uTo : Tile) (lb : Nat)
    (hrec : s.inRecoveryMode = false)
    (hbind : lookupA s.idToAddress sockId = some sender)
    (hlb : lookupA s.playerLatestBlock sender = some lb)
    (hless : lb < s.currentBlockHeight)
    (hown : uFrom.ownerAddr = sender)
    (hda : s.socketIdDA = none) :
    (getMoveSignature s sockId uFrom uTo).1.queuedTilesDA
        = s.queuedTilesDA ++ [encTile uFrom, encTile uTo]
    ∧ (onMoveFinalize (getMoveSignature s sockId uFrom uTo).1 uFrom uTo).1.queuedTilesDA
        = s.queuedTilesDA ++
            [encTile uFrom, encTile uTo, encTile uFrom, encTile uTo]
    ∧ s.queuedTilesDA.length + 4 ≤
        (onMoveFinalize (getMoveSignature s sockId uFrom uTo).1 uFrom
          uTo).1.queuedTilesDA.length := by
  have hacc := getMoveSignature_accept_eq s sockId sender uFrom uTo lb hbind
    hrec hlb hless hown
  have hdaA : (acceptState s sender uFrom uTo).socketIdDA = none := hda
  rw [hacc, dequeue_of_no_da _ hdaA]
  have hcm : lookupA (acceptState s sender uFrom uTo).claimedMoves
      (uFrom, uTo) = some
        { uFrom := uFrom, uTo := uTo, blockSubmitted := s.currentBlockHeight,
          uFromEnc := encTile uFrom, uToEnc := encTile uTo } :=
    lookupA_setA_same _ _ _
  have hfin := onMoveFinalize_found_eq (acceptState s sender uFrom uTo)
    uFrom uTo _ hrec hcm
  have hdaF : (finalizeState (acceptState s sender uFrom uTo) uFrom uTo
      { uFrom := uFrom, uTo := uTo, blockSubmitted := s.currentBlockHeight,
        uFromEnc := encTile uFrom, uToEnc := encTile uTo }).socketIdDA =
      none := hda
  rw [hfin, dequeue_of_no_da _ hdaF]
  refine ⟨rfl, by simp [finalizeState, acceptState], ?_⟩
  simp [finalizeState, acceptState]

/-- Witness for C10: player A's sample proposal and finalization at the
sample logged-in state at height 5. -/
theorem move_backup_enqueued_witness :
    (getMoveSignature sC2 "sock1" uFromM uToM).1.queuedTilesDA
        = sC2.queuedTilesDA ++ [encTile uFromM, encTile uToM]
    ∧ (onMoveFinalize (getMoveSignature sC2 "sock1" uFromM uToM).1 uFromM
        uToM).1.queuedTilesDA
        = sC2.queuedTilesDA ++
            [encTile uFromM, encTile uToM, encTile uFromM, encTile uToM]
    ∧ sC2.queuedTilesDA.length + 4 ≤
        (onMoveFinalize (getMoveSignature sC2 "sock1" uFromM uToM).1 uFromM
          uToM).1.queuedTilesDA.length :=
  move_backup_enqueued sC2 "sock1" "addrA" uFromM uToM 0 rfl (by decide)
    (by decide) (by decide) rfl rfl

/-- Claim C3: a claimed move proposed at height H with lifespan L and
never finalized survives the per-block sweep at height H+L, is deleted
by the sweep at height H+L+1, and a fresh proposal for the same from/to
hash pair is then accepted again, re-recording the claim at the new
height. -/
theorem claimedMove_expiry (s : EState) (k : TileHash × TileHash)
    (cm : ClaimedMove) (Hh L : Nat) (sockId sender : String) (h0 : Nat)
    (hnd : (s.claimedMoves.map Prod.fst).Nodup)
    (hL : s.claimedMoveLifeSpan = L)
    (hcm : lookupA s.claimedMoves k = some cm)
    (hH : cm.blockSubmitted = Hh)
    (hrec : s.inRecoveryMode = false)
    (hbind : lookupA s.idToAddress sockId = some sender)
    (hlb : lookupA s.playerLatestBlock sender = some h0)
    (hh0 : h0 < Hh + L + 1)
    (hown : (k.1).ownerAddr = sender) :
    lookupA (onBlock s (Hh + L)).claimedMoves k = some cm
    ∧ lookupA (onBlock s (Hh + L + 1)).claimedMoves k = none
    ∧ Eff.emitMoveSignatureResponse sockId (Hh + L + 1) ∈
        (getMoveSignature (onBlock s (Hh + L + 1)) sockId k.1 k.2).2
    ∧ lookupA (getMoveSignature (onBlock s (Hh + L + 1)) sockId k.1
          k.2).1.claimedMoves k = some
        { uFrom := k.1, uTo := k.2, blockSubmitted := Hh + L + 1,
          uFromEnc := encTile k.1, uToEnc := encTile k.2 } := by
  have hkeep : lookupA (onBlock s (Hh + L)).claimedMoves k = some cm := by
    simp only [onBlock, upkeepClaimedMoves]
    apply lookupA_filter_keep _ _ _ _ hcm
    simp [hH, hL]
  have hdrop : lookupA (onBlock s (Hh + L + 1)).claimedMoves k = none := by
    simp only [onBlock, upkeepClaimedMoves]
    apply lookupA_filter_drop _ _ cm _ hnd hcm
    simp [hH, hL]
  have hbind' : lookupA (onBlock s (Hh + L + 1)).idToAddress sockId =
      some sender := hbind
  have hrec' : (onBlock s (Hh + L + 1)).inRecoveryMode = false := hrec
  have hlb' : lookupA (onBlock s (Hh + L + 1)).playerLatestBlock sender =
      some h0 := hlb
  have hheight : (onBlock s (Hh + L + 1)).currentBlockHeight = Hh + L + 1 := rfl
  have hacc := getMoveSignature_accept_eq (onBlock s (Hh + L + 1)) sockId
    sender k.1 k.2 h0 hbind' hrec' hlb' (by rw [hheight]; exact hh0) hown
  refine ⟨hkeep, hdrop, ?_, ?_⟩
  · rw [hacc, hheight]
    exact List.mem_cons_self _ _
  · rw [hacc]
    rw [(dequeue_state_parts (acceptState (onBlock s (Hh + L + 1)) sender
      k.1 k.2)).2.2.2.1]
    simp only [acceptState]
    exact lookupA_setA_same _ _ _

/-- Witness for C3: the sample claim proposed at height 100 with
lifespan 5 survives the sweep at 105, is swept at 106 and the same pair
is accepted again at 106. -/
theorem claimedMove_expiry_witness :
    lookupA (onBlock sC3 105).claimedMoves (uFromM, uToM) = some cmM
    ∧ lookupA (onBlock sC3 106).claimedMoves (uFromM, uToM) = none
    ∧ Eff.emitMoveSignatureResponse "sock1" 106 ∈
        (getMoveSignature (onBlock sC3 106) "sock1" uFromM uToM).2
    ∧ lookupA (getMoveSignature (onBlock sC3 106) "sock1" uFromM
          uToM).1.claimedMoves (uFromM, uToM) = some
        { uFrom := uFromM, uTo := uToM, blockSubmitted := 106,
          uFromEnc := encTile uFromM, uToEnc := encTile uToM } :=
  claimedMove_expiry sC3 (uFromM, uToM) cmM 100 5 "sock1" "addrA" 100
    (by decide) rfl (by decide) rfl rfl (by decide) (by decide) (by decide)
    rfl

theorem mem_of_lookupA_isSome {κ α : Type} [DecidableEq κ]
    (m : List (κ × α)) (k : κ) (h : (lookupA m k).isSome = true) :
    k ∈ m.map Prod.fst := by
  by_contra hmem
  rw [lookupA_none_of_not_mem m k hmem] at h
  simp at h

theorem amKeys_amAdd (m : AlertMap) (k : String) (v : Loc) :
    amKeys (amAdd m k v) = amKeys m := by
  induction m with
  | nil => rfl
  | cons kv rest ih =>
      obtain ⟨k0, vs⟩ := kv
      by_cases h : k0 = k
      · simp [amAdd, h, amKeys]
      · simp only [amAdd, if_neg h, amKeys, List.map_cons]
        exact congrArg (List.cons k0) ih

theorem mem_amKeys_amEnsure_self (m : AlertMap) (k : String) :
    k ∈ amKeys (amEnsure m k) := by
  unfold amEnsure
  by_cases h : amHas m k = true
  · rw [if_pos h]
    exact mem_of_lookupA_isSome m k h
  · rw [if_neg h]
    simp [amKeys]

theorem mem_amKeys_amEnsure_mono (m : AlertMap) (k a : String)
    (h : a ∈ amKeys m) : a ∈ amKeys (amEnsure m k) := by
  unfold amEnsure
  split
  · exact h
  · simp only [amKeys, List.map_append]
    exact List.mem_append_left _ h

theorem mem_amKeys_process_mono (b : Board) (no po : String) (ul : Loc)
    (m : AlertMap) (l : Loc) (a : String) (h : a ∈ amKeys m) :
    a ∈ amKeys (processNearbyLoc b no po ul m l) := by
  unfold processNearbyLoc
  simp only [amKeys_amAdd]
  exact mem_amKeys_amEnsure_mono _ _ _ h

theorem owner_mem_amKeys_process (b : Board) (no po : String) (ul : Loc)
    (m : AlertMap) (l : Loc) :
    (b.getTile l).ownerAddr ∈ amKeys (processNearbyLoc b no po ul m l) := by
  unfold processNearbyLoc
  simp only [amKeys_amAdd]
  exact mem_amKeys_amEnsure_self _ _

theorem mem_amKeys_innerFold_mono (b : Board) (no po : String) (ul : Loc)
    (ns : List Loc) (m : AlertMap) (a : String) (h : a ∈ amKeys m) :
    a ∈ amKeys (ns.foldl (processNearbyLoc b no po ul) m) := by
  induction ns generalizing m with
  | nil => exact h
  | cons x xs ih =>
      exact ih _ (mem_amKeys_process_mono b no po ul m x a h)

theorem owner_mem_amKeys_innerFold (b : Board) (no po : String) (ul : Loc)
    (ns : List Loc) (m : AlertMap) (l : Loc) (hl : l ∈ ns) :
    (b.getTile l).ownerAddr ∈
      amKeys (ns.foldl (processNearbyLoc b no po ul) m) := by
  induction ns generalizing m with
  | nil => cases hl
  | cons x xs ih =>
      rcases List.mem_cons.mp hl with hx | hx
      · subst hx
        exact mem_amKeys_innerFold_mono b no po ul xs _ _
          (owner_mem_amKeys_process b no po ul m l)
      · exact ih _ hx

theorem mem_amKeys_outerFold_mono (b : Board) (no po : String)
    (locs : List Loc) (m : AlertMap) (a : String) (h : a ∈ amKeys m) :
    a ∈ amKeys (locs.foldl
      (fun acc loc =>
        (b.getNearbyLocations loc).foldl (processNearbyLoc b no po loc) acc)
      m) := by
  induction locs generalizing m with
  | nil => exact h
  | cons x xs ih =>
      exact ih _ (mem_amKeys_innerFold_mono b no po x _ m a h)

theorem owner_mem_amKeys_outerFold (b : Board) (no po : String)
    (locs : List Loc) (m : AlertMap) (lx ln : Loc) (hlx : lx ∈ locs)
    (hln : ln ∈ b.getNearbyLocations lx) :
    (b.getTile ln).ownerAddr ∈ amKeys (locs.foldl
      (fun acc loc =>
        (b.getNearbyLocations loc).foldl (processNearbyLoc b no po loc) acc)
      m) := by
  induction locs generalizing m with
  | nil => cases hlx
  | cons x xs ih =>
      rcases List.mem_cons.mp hlx with hx | hx
      · subst hx
        exact mem_amKeys_outerFold_mono b no po xs _ _
          (owner_mem_amKeys_innerFold b no po lx _ m ln hln)
      · exact ih _ hx

theorem owner_mem_amKeys_buildAlertMap (b : Board) (no po : String)
    (locs : List Loc) (lx ln : Loc) (hlx : lx ∈ locs)
    (hln : ln ∈ b.getNearbyLocations lx) :
    (b.getTile ln).ownerAddr ∈ amKeys (buildAlertMap b no po locs) :=
  owner_mem_amKeys_outerFold b no po locs [] lx ln hlx hln

theorem alertedTo_alertPlayers (b : Board) (bound : List (String × String))
    (no po : String) (locs : List Loc) (addr sid : String) (lx ln : Loc)
    (hb : lookupA bound addr = some sid) (hlx : lx ∈ locs)
    (hln : ln ∈ b.getNearbyLocations lx)
    (hown : (b.getTile ln).ownerAddr = addr) :
    alertedTo sid (alertPlayers b bound no po locs) = true := by
  have hkey : addr ∈ amKeys (buildAlertMap b no po locs) := by
    rw [← hown]
    exact owner_mem_amKeys_buildAlertMap b no po locs lx ln hlx hln
  obtain ⟨p, hmem, hfst⟩ := List.mem_map.mp hkey
  have hb2 : lookupA bound p.1 = some sid := by rw [hfst]; exact hb
  have hemit : Eff.emitUpdateDisplay sid p.2 ∈ alertPlayers b bound no po locs := by
    unfold alertPlayers
    refine List.mem_filterMap.mpr ⟨p, hmem, ?_⟩
    simp [hb2]
  unfold alertedTo
  rw [List.any_eq_true]
  exact ⟨Eff.emitUpdateDisplay sid p.2, hemit, by simp⟩

theorem alertedTo_append_right (sid : String) (xs ys : List Eff)
    (h : alertedTo sid ys = true) : alertedTo sid (xs ++ ys) = true := by
  unfold alertedTo at h ⊢
  rw [List.any_append, h]
  simp

theorem computeUpdatedLocs_capital (b : Board) (cm : ClaimedMove)
    (hch : (b.getTile cm.uTo.loc).ownerAddr ≠ cm.uTo.ownerAddr)
    (hcap : (b.getTile cm.uTo.loc).isCapital = true) :
    computeUpdatedLocs b cm = cm.uFrom.loc ::
      ((b.playerCities (b.getTile cm.uTo.loc).ownerAddr).map
        (fun cid => b.cityTiles cid)).flatten := by
  simp [computeUpdatedLocs, hch, hcap]

theorem computeUpdatedLocs_cityCenter (b : Board) (cm : ClaimedMove)
    (hch : (b.getTile cm.uTo.loc).ownerAddr ≠ cm.uTo.ownerAddr)
    (hcap : (b.getTile cm.uTo.loc).isCapital = false)
    (hcc : (b.getTile cm.uTo.loc).isCityCenter = true) :
    computeUpdatedLocs b cm =
      cm.uFrom.loc :: b.cityTiles (b.getTile cm.uTo.loc).cityId := by
  simp [computeUpdatedLocs, hch, hcap, hcc]

theorem computeUpdatedLocs_plain (b : Board) (cm : ClaimedMove)
    (h1 : ¬((b.getTile cm.uTo.loc).ownerAddr ≠ cm.uTo.ownerAddr ∧
        (b.getTile cm.uTo.loc).isCapital = true))
    (h2 : ¬((b.getTile cm.uTo.loc).ownerAddr ≠ cm.uTo.ownerAddr ∧
        (b.getTile cm.uTo.loc).isCityCenter = true)) :
    computeUpdatedLocs b cm = [cm.uFrom.loc, cm.uTo.loc] := by
  simp only [computeUpdatedLocs]
  rw [if_neg h1, if_neg h2]

theorem findTile_some (ts : List Tile) (l : Loc) (tt : Tile)
    (h : findTile ts l = some tt) : tt ∈ ts ∧ tt.loc = l := by
  induction ts with
  | nil => cases h
  | cons x xs ih =>
      by_cases hx : x.loc = l
      · simp only [findTile, if_pos hx] at h
        obtain rfl : x = tt := by injection h
        exact ⟨List.mem_cons_self _ _, hx⟩
      · simp only [findTile, if_neg hx] at h
        obtain ⟨h1, h2⟩ := ih h
        exact ⟨List.mem_cons_of_mem _ h1, h2⟩

theorem findTile_setTileList_self (ts : List Tile) (u : Tile) :
    findTile (setTileList ts u) u.loc = some u := by
  induction ts with
  | nil => simp [setTileList, findTile]
  | cons x xs ih =>
      by_cases hx : x.loc = u.loc
      · simp [setTileList, hx, findTile]
      · simp [setTileList, hx, findTile, ih]

theorem getTile_setTile_self (b : Board) (u : Tile) :
    (b.setTile u).getTile u.loc = u := by
  simp [Board.getTile, Board.setTile, findTile_setTileList_self]

theorem self_mem_getNearbyLocations (b : Board) (l : Loc)
    (h : b.inBoundsB l = true) : l ∈ b.getNearbyLocations l := by
  unfold Board.getNearbyLocations
  apply List.mem_filter.mpr
  refine ⟨List.mem_map.mpr ⟨(0, 0), by simp [nearbyOffsets], ?_⟩, h⟩
  cases l with
  | mk r c => simp

/-- Claim C4 counterexample, in two parts.  First, a finalized move
with no ownership change marks the origin tile in addition to the
destination, so the affected set is not only the destination.  Second,
a capital capture dispossessing a player whose whole empire was that
single capital tile does not alert the old owner even though they have
a live session: after the update they own no tile in range, so the
notification map never gains their key. -/
theorem onMoveFinalize_refresh_counterexample :
    cmM.uFrom.loc ∈ computeUpdatedLocs bd4a cmM
    ∧ cmM.uFrom.loc ≠ cmM.uTo.loc
    ∧ (bd4a.getTile cmM.uTo.loc).ownerAddr = cmM.uTo.ownerAddr
    ∧ (sC4b.board.getTile cm4b.uTo.loc).ownerAddr ≠ cm4b.uTo.ownerAddr
    ∧ (sC4b.board.getTile cm4b.uTo.loc).isCapital = true
    ∧ lookupA sC4b.claimedMoves (uF4b, uT4b) = some cm4b
    ∧ lookupA sC4b.addressToId (sC4b.board.getTile cm4b.uTo.loc).ownerAddr =
        some "sockB"
    ∧ alertedTo "sockB" (onMoveFinalize sC4b uF4b uT4b).2 = false := by
  refine ⟨by decide, by decide, by decide, by decide, by decide, by decide,
    by decide, by decide⟩

/-- Claim C4 (amended): for a finalized move with a stored claim, the
affected-locations set contains, when a capital changed owner, every
tile of every city of the dispossessed owner (and always the origin
tile); when a non-capital city center changed owner it is the origin
tile plus that city's tiles; otherwise it is exactly the origin and
destination tiles.  The notification pass alerts every bound player who
owns, in the updated board, a tile in the neighborhood of an affected
location; in particular the new owner is alerted in the capital case
whenever they are bound (and the old owner is whenever they still own
such a tile). -/
theorem onMoveFinalize_capital_refresh (s : EState) (f t : TileHash)
    (cm : ClaimedMove) (cid : Nat) (lc : Loc) (addr sid : String)
    (lx ln : Loc) (sidN : String)
    (hrec : s.inRecoveryMode = false)
    (hcm : lookupA s.claimedMoves (f, t) = some cm) :
    ((s.board.getTile cm.uTo.loc).ownerAddr ≠ cm.uTo.ownerAddr →
      (s.board.getTile cm.uTo.loc).isCapital = true →
      cid ∈ s.board.playerCities (s.board.getTile cm.uTo.loc).ownerAddr →
      lc ∈ s.board.cityTiles cid →
      lc ∈ computeUpdatedLocs s.board cm)
    ∧ cm.uFrom.loc ∈ computeUpdatedLocs s.board cm
    ∧ ((s.board.getTile cm.uTo.loc).ownerAddr ≠ cm.uTo.ownerAddr →
      (s.board.getTile cm.uTo.loc).isCapital = false →
      (s.board.getTile cm.uTo.loc).isCityCenter = true →
      computeUpdatedLocs s.board cm =
        cm.uFrom.loc :: s.board.cityTiles (s.board.getTile cm.uTo.loc).cityId)
    ∧ (¬((s.board.getTile cm.uTo.loc).ownerAddr ≠ cm.uTo.ownerAddr ∧
          (s.board.getTile cm.uTo.loc).isCapital = true) →
      ¬((s.board.getTile cm.uTo.loc).ownerAddr ≠ cm.uTo.ownerAddr ∧
          (s.board.getTile cm.uTo.loc).isCityCenter = true) →
      computeUpdatedLocs s.board cm = [cm.uFrom.loc, cm.uTo.loc])
    ∧ (lookupA s.addressToId addr = some sid →
      lx ∈ computeUpdatedLocs s.board cm →
      ln ∈ ((s.board.setTile cm.uFrom).setTile cm.uTo).getNearbyLocations lx →
      (((s.board.setTile cm.uFrom).setTile cm.uTo).getTile ln).ownerAddr = addr →
      alertedTo sid (onMoveFinalize s f t).2 = true)
    ∧ ((s.board.getTile cm.uTo.loc).ownerAddr ≠ cm.uTo.ownerAddr →
      (s.board.getTile cm.uTo.loc).isCapital = true →
      (findTile s.board.tiles cm.uTo.loc).isSome = true →
      s.board.inBoundsB cm.uTo.loc = true →
      lookupA s.addressToId cm.uTo.ownerAddr = some sidN →
      alertedTo sidN (onMoveFinalize s f t).2 = true) := by
  have hfin := onMoveFinalize_found_eq s f t cm hrec hcm
  have hboard : (dequeueTileIfDAConnected (finalizeState s f t cm)).1.board =
      (s.board.setTile cm.uFrom).setTile cm.uTo :=
    (dequeue_state_parts (finalizeState s f t cm)).1
  have hbound : (dequeueTileIfDAConnected (finalizeState s f t cm)).1.addressToId =
      s.addressToId :=
    (dequeue_state_parts (finalizeState s f t cm)).2.1
  have halert : ∀ (addr2 sid2 : String) (lx2 ln2 : Loc),
      lookupA s.addressToId addr2 = some sid2 →
      lx2 ∈ computeUpdatedLocs s.board cm →
      ln2 ∈ ((s.board.setTile cm.uFrom).setTile cm.uTo).getNearbyLocations lx2 →
      (((s.board.setTile cm.uFrom).setTile cm.uTo).getTile ln2).ownerAddr = addr2 →
      alertedTo sid2 (onMoveFinalize s f t).2 = true := by
    intro addr2 sid2 lx2 ln2 hb2 hlx2 hln2 hown2
    rw [hfin]
    apply alertedTo_append_right
    rw [hboard, hbound]
    exact alertedTo_alertPlayers _ _ _ _ _ addr2 sid2 lx2 ln2 hb2 hlx2 hln2 hown2
  have hfromloc : cm.uFrom.loc ∈ computeUpdatedLocs s.board cm := by
    simp only [computeUpdatedLocs]
    split
    · exact List.mem_cons_self _ _
    · split
      · exact List.mem_cons_self _ _
      · exact List.mem_cons_self _ _
  refine ⟨?_, hfromloc, ?_, ?_, ?_, ?_⟩
  · intro hch hcap hcid hlc
    rw [computeUpdatedLocs_capital s.board cm hch hcap]
    apply List.mem_cons_of_mem
    exact List.mem_flatten.mpr
      ⟨s.board.cityTiles cid, List.mem_map.mpr ⟨cid, hcid, rfl⟩, hlc⟩
  · exact computeUpdatedLocs_cityCenter s.board cm
  · exact computeUpdatedLocs_plain s.board cm
  · intro hb hlx hln hown
    exact halert addr sid lx ln hb hlx hln hown
  · intro hch hcap hft hbnd hbN
    obtain ⟨tt, htt⟩ := Option.isSome_iff_exists.mp hft
    obtain ⟨httmem, httloc⟩ := findTile_some s.board.tiles cm.uTo.loc tt htt
    have hget : s.board.getTile cm.uTo.loc = tt := by
      simp [Board.getTile, htt]
    have hmemc : cm.uTo.loc ∈ s.board.cityTiles tt.cityId :=
      List.mem_map.mpr ⟨tt, List.mem_filter.mpr ⟨httmem, by simp⟩, httloc⟩
    have hcidmem : tt.cityId ∈
        s.board.playerCities (s.board.getTile cm.uTo.loc).ownerAddr := by
      rw [hget]
      exact List.mem_dedup.mpr
        (List.mem_map.mpr ⟨tt, List.mem_filter.mpr ⟨httmem, by simp⟩, rfl⟩)
    have htoloc : cm.uTo.loc ∈ computeUpdatedLocs s.board cm := by
      rw [computeUpdatedLocs_capital s.board cm hch hcap]
      apply List.mem_cons_of_mem
      refine List.mem_flatten.mpr
        ⟨s.board.cityTiles tt.cityId,
         List.mem_map.mpr ⟨tt.cityId, hcidmem, rfl⟩, ?_⟩
      exact hmemc
    have hself : cm.uTo.loc ∈
        ((s.board.setTile cm.uFrom).setTile cm.uTo).getNearbyLocations
          cm.uTo.loc :=
      self_mem_getNearbyLocations _ cm.uTo.loc hbnd
    have hownN : (((s.board.setTile cm.uFrom).setTile cm.uTo).getTile
        cm.uTo.loc).ownerAddr = cm.uTo.ownerAddr := by
      rw [getTile_setTile_self]
    exact halert cm.uTo.ownerAddr sidN cm.uTo.loc cm.uTo.loc hbN htoloc hself
      hownN

/-- Witness for C4: the sample capital capture with both players bound;
the dispossessed city's tile is marked, the marked set contains the
origin, and both the tile-owning neighbor and the new owner receive an
alert. -/
theorem onMoveFinalize_capital_refresh_witness :
    ((sC4w.board.getTile cm4b.uTo.loc).ownerAddr ≠ cm4b.uTo.ownerAddr →
      (sC4w.board.getTile cm4b.uTo.loc).isCapital = true →
      7 ∈ sC4w.board.playerCities (sC4w.board.getTile cm4b.uTo.loc).ownerAddr →
      ({ r := 2, c := 2 } : Loc) ∈ sC4w.board.cityTiles 7 →
      ({ r := 2, c := 2 } : Loc) ∈ computeUpdatedLocs sC4w.board cm4b)
    ∧ cm4b.uFrom.loc ∈ computeUpdatedLocs sC4w.board cm4b
    ∧ ((sC4w.board.getTile cm4b.uTo.loc).ownerAddr ≠ cm4b.uTo.ownerAddr →
      (sC4w.board.getTile cm4b.uTo.loc).isCapital = false →
      (sC4w.board.getTile cm4b.uTo.loc).isCityCenter = true →
      computeUpdatedLocs sC4w.board cm4b =
        cm4b.uFrom.loc ::
          sC4w.board.cityTiles (sC4w.board.getTile cm4b.uTo.loc).cityId)
    ∧ (¬((sC4w.board.getTile cm4b.uTo.loc).ownerAddr ≠ cm4b.uTo.ownerAddr ∧
          (sC4w.board.getTile cm4b.uTo.loc).isCapital = true) →
      ¬((sC4w.board.getTile cm4b.uTo.loc).ownerAddr ≠ cm4b.uTo.ownerAddr ∧
          (sC4w.board.getTile cm4b.uTo.loc).isCityCenter = true) →
      computeUpdatedLocs sC4w.board cm4b = [cm4b.uFrom.loc, cm4b.uTo.loc])
    ∧ (lookupA sC4w.addressToId "addrA" = some "sockA" →
      ({ r := 2, c := 1 } : Loc) ∈ computeUpdatedLocs sC4w.board cm4b →
      ({ r := 2, c := 1 } : Loc) ∈
        ((sC4w.board.setTile cm4b.uFrom).setTile cm4b.uTo).getNearbyLocations
          { r := 2, c := 1 } →
      (((sC4w.board.setTile cm4b.uFrom).setTile cm4b.uTo).getTile
          { r := 2, c := 1 }).ownerAddr = "addrA" →
      alertedTo "sockA" (onMoveFinalize sC4w uF4b uT4b).2 = true)
    ∧ ((sC4w.board.getTile cm4b.uTo.loc).ownerAddr ≠ cm4b.uTo.ownerAddr →
      (sC4w.board.getTile cm4b.uTo.loc).isCapital = true →
      (findTile sC4w.board.tiles cm4b.uTo.loc).isSome = true →
      sC4w.board.inBoundsB cm4b.uTo.loc = true →
      lookupA sC4w.addressToId cm4b.uTo.ownerAddr = some "sockA" →
      alertedTo "sockA" (onMoveFinalize sC4w uF4b uT4b).2 = true) :=
  onMoveFinalize_capital_refresh sC4w uF4b uT4b cm4b 7 { r := 2, c := 2 }
    "addrA" "sockA" { r := 2, c := 1 } { r := 2, c := 1 } "sockA" rfl
    (by decide)

end NSEnclave
